import Mathlib

/-!
Verification of the hotdeal-automation notifier core.

This file gives a shallow embedding of the deduplicating dispatch core of the
repository: the sent-products ledger, its load/save/compaction logic, the
deal filter/ranker, the dispatch loop of `main`, and the telegram send retry
wrapper (all from `src/telegram_sender.py`), together with the per-item
extraction arithmetic of `src/crawler.py`.  Theorems about these definitions
settle the frozen specification claims.
-/

namespace Hotdeal

/-- One deal row of the CSV batch produced by the crawler
(`src/crawler.py`, `product_info` keys written by `save_deals_to_csv`).
Numeric columns carry machine integers; `crawled_at` is omitted because no
embedded function reads it. -/
structure Deal where
  title : String
  price : Int
  original_price : Int
  discount : Int
  link : String
  image_url : String
  category : String
deriving Repr, DecidableEq, Inhabited

/-- One value of the `sent_products` mapping
(`src/telegram_sender.py` lines 398-403). -/
structure SentEntry where
  title : String
  price : Int
  discount : Int
  sent_date : String
deriving Repr, DecidableEq, Inhabited

/-- The `sent_products` JSON object: a string-keyed Python dict, modelled as an
insertion-ordered association list whose keys are unique. -/
abbrev Ledger := List (String × SentEntry)

/-- Python `k in sent_products` membership test on the dict. -/
def ledgerMember (L : Ledger) (k : String) : Bool :=
  L.any (fun kv => kv.1 == k)

/-- Python dict assignment `sent_products[k] = v`: an existing key is updated
in place, a fresh key is appended (dicts preserve insertion order). -/
def ledgerInsert (L : Ledger) (k : String) (v : SentEntry) : Ledger :=
  if ledgerMember L k then
    L.map (fun kv => if kv.1 == k then (k, v) else kv)
  else
    L ++ [(k, v)]

/-- Python `sorted(xs, key=key, reverse=True)`: a stable descending sort
(CPython list sort is stable, and `reverse=True` keeps elements with equal
keys in their original relative order).  Modelled by insertion sort with the
total preorder `key b ≤ key a`, which has the same stability behaviour. -/
def pySortDescBy {α : Type} (key : α → String) (l : List α) : List α :=
  List.insertionSort (fun a b => key b ≤ key a) l

/-- pandas `Series.sort_values(ascending=False)` as used by
`DataFrame.sort_values(by=col, ascending=False)` with the default `kind`:
`nargsort` computes an ascending argsort of the column and then reverses the
whole indexer (`indexer = indexer[::-1]`), so elements with equal keys come
out in reversed original order.  Modelled as the reverse of a stable
ascending insertion sort, which agrees with the numpy default on small
inputs (where the ascending argsort is stable). -/
def pandasSortDescBy {α : Type} (key : α → Int) (l : List α) : List α :=
  (List.insertionSort (fun a b => key a ≤ key b) l).reverse

/-- `save_sent_products` (`src/telegram_sender.py` lines 124-159), as the
contents serialized to the primary file and mirrored to the backup file.
If the dict holds more than `maxSentProducts` entries, the items are sorted
by `sent_date` descending (`sorted(..., key=..., reverse=True)`, entries
always carry the `sent_date` key the code defaults with `.get`) and only the
first `maxSentProducts` of them are kept (the enumerate loop inserts exactly
the indices below the cap).  The function rebinds its local name to the
compacted dict, so the caller side mapping is never mutated; the compacted
dict is only what gets written. -/
def save_sent_products (maxSentProducts : Nat) (sent : Ledger) : Ledger :=
  if maxSentProducts < sent.length then
    (pySortDescBy (fun kv => kv.2.sent_date) sent).take maxSentProducts
  else
    sent

/-- State of one persisted ledger file as the loader observes it: absent,
present but failing JSON parse, or present with parsed contents. -/
inductive SentFile where
  | missing
  | invalid
  | valid (contents : Ledger)
deriving Repr, DecidableEq

/-- Result of `load_sent_products`: the returned mapping plus the states the
two files are left in (the loader mirrors a freshly parsed primary to the
backup, and rewrites a corrupt primary from a recovered backup). -/
structure LoadResult where
  result : Ledger
  primaryAfter : SentFile
  backupAfter : SentFile
deriving Repr, DecidableEq

/-- `load_sent_products` (`src/telegram_sender.py` lines 80-122).
A parse failure of the primary (`json.JSONDecodeError`) falls back to the
backup; any failure there too, or a missing primary, falls through to the
final `return {}`.  Every exception path is caught (inner handlers plus the
outer catch-all returning `{}`), so the embedding is a total function:
no input makes it raise. -/
def load_sent_products (primary backup : SentFile) : LoadResult :=
  match primary with
  | .valid L => ⟨L, .valid L, .valid L⟩
  | .invalid =>
    match backup with
    | .valid B => ⟨B, .valid B, .valid B⟩
    | b => ⟨[], .invalid, b⟩
  | .missing => ⟨[], .missing, backup⟩

/-- `filter_deals` (`src/telegram_sender.py` lines 161-174) on the typed
common path, where the batch rows carry the crawler columns: an empty frame
returns the empty list, otherwise the rows with `discount >= min_discount`
are kept (`df[df[col] >= t]` preserves row order) and sorted by
`sort_values(by=discount, ascending=False)`. -/
def filter_deals (min_discount : Int) (rows : List Deal) : List Deal :=
  if rows.length = 0 then []
  else pandasSortDescBy (fun d => d.discount)
    (rows.filter (fun d => min_discount ≤ d.discount))

/-- The normalization described by the specification (section 4.1 Link
Normalizer), stated from the words of the spec for comparison with the code:
drop everything from the first question mark onward. -/
def specNormalize (u : String) : String :=
  String.mk (u.data.takeWhile (fun c => c ≠ '?'))

/-- Environment-driven configuration of the dispatch stage
(`MAX_SEND_COUNT`, `MAX_SENT_PRODUCTS`, and the `today` date string the run
computes once at line 368). -/
structure DispatchConfig where
  maxSendCount : Nat
  maxSentProducts : Nat
  today : String
deriving Repr, DecidableEq

/-- State threaded through the dispatch loop of `main`
(`src/telegram_sender.py` lines 370-414).  `sent_products` is the in-memory
dict, `primaryFile` the contents last written to the primary (and backup)
ledger file.  `attempted` and `delivered` are ghost history fields recording
which deals a delivery attempt was made for and which links were delivered;
they mirror no Python variable and influence nothing. -/
structure DispatchState where
  sent_products : Ledger
  primaryFile : Ledger
  sentCount : Nat
  alreadySentCount : Nat
  attempted : List Deal
  delivered : List String
deriving Repr, DecidableEq

/-- The entry recorded for a delivered deal
(`src/telegram_sender.py` lines 398-403). -/
def entryOf (cfg : DispatchConfig) (d : Deal) : SentEntry :=
  ⟨d.title, d.price, d.discount, cfg.today⟩

/-- One iteration of the dispatch loop (`src/telegram_sender.py` lines
375-411).  The cap check at the top of the body models `break`: once
`sent_count >= MAX_SEND_COUNT` every remaining iteration leaves the state
unchanged, which is extensionally the early exit.  `send` is the outcome of
`send_deal_to_telegram` for a deal; that function catches every exception
internally and only reports a boolean.  On success the deal is recorded
under the raw `deal_dict[link]` key, the counter increments, and every
fifth success flushes the (possibly compacted) dict to disk. -/
def stepDeal (cfg : DispatchConfig) (send : Deal → Bool)
    (st : DispatchState) (d : Deal) : DispatchState :=
  if cfg.maxSendCount ≤ st.sentCount then st
  else if ledgerMember st.sent_products d.link then
    { st with alreadySentCount := st.alreadySentCount + 1 }
  else if send d then
    let L := ledgerInsert st.sent_products d.link (entryOf cfg d)
    let c := st.sentCount + 1
    { sent_products := L
      primaryFile := if c % 5 = 0 then save_sent_products cfg.maxSentProducts L
                     else st.primaryFile
      sentCount := c
      alreadySentCount := st.alreadySentCount
      attempted := st.attempted ++ [d]
      delivered := st.delivered ++ [d.link] }
  else
    { st with attempted := st.attempted ++ [d] }

/-- The dispatch phase of `main` (`src/telegram_sender.py` lines 368-414):
fold the loop body over the filtered deals starting from the loaded ledger
(whose contents the loader also left mirrored in the files), then perform
the final `save_sent_products` at line 414. -/
def runDispatch (cfg : DispatchConfig) (send : Deal → Bool)
    (L0 : Ledger) (deals : List Deal) : DispatchState :=
  let final := deals.foldl (stepDeal cfg send) ⟨L0, L0, 0, 0, [], []⟩
  { final with
      primaryFile := save_sent_products cfg.maxSentProducts final.sent_products }

/-- Outcome of one telegram bot API call as `send_telegram_message` observes
it: a returned message, or one of the exception classes its handlers
distinguish (`src/telegram_sender.py` lines 206-282). -/
inductive TgOutcome where
  | success
  | retryAfter (seconds : ℚ)
  | badRequestParse
  | badRequestOther
  | timedOut
  | networkError
  | telegramError
  | otherError
deriving Repr, DecidableEq

/-- Observable result of `send_telegram_message`: the boolean outcome, the
sequence of `time.sleep` durations in seconds, and how many bot API calls
were made. -/
structure SendTrace where
  ok : Bool
  sleeps : List ℚ
  calls : Nat
deriving Repr, DecidableEq

/-- The retry loop of `send_telegram_message` (`src/telegram_sender.py`
lines 203-285).  `bot` maps the index of an API call to its outcome;
`remaining` counts the iterations the single `for attempt in
range(max_retries)` loop still has, so `remaining = 0` inside an iteration
marks the last attempt (`attempt == max_retries - 1`), after which every
failure path returns `False`.  A rate-limit signal sleeps
`retry_after + 0.5` seconds and retries inside the same loop; a parse-mode
`BadRequest` makes one extra plain-text call and returns its outcome;
`TimedOut`, `NetworkError`, `TelegramError` and unexpected exceptions sleep
their fixed backoffs (2, 3, 2, 2 seconds) before retrying. -/
def sendGo (bot : Nat → TgOutcome) :
    Nat → Nat → List ℚ → SendTrace
  | 0, call, sleeps => ⟨false, sleeps, call⟩
  | remaining + 1, call, sleeps =>
    match bot call with
    | .success => ⟨true, sleeps, call + 1⟩
    | .retryAfter s =>
      if remaining = 0 then ⟨false, sleeps, call + 1⟩
      else sendGo bot remaining (call + 1) (sleeps ++ [s + 1/2])
    | .badRequestParse =>
      match bot (call + 1) with
      | .success => ⟨true, sleeps, call + 2⟩
      | _ => ⟨false, sleeps, call + 2⟩
    | .badRequestOther => ⟨false, sleeps, call + 1⟩
    | .timedOut =>
      if remaining = 0 then ⟨false, sleeps, call + 1⟩
      else sendGo bot remaining (call + 1) (sleeps ++ [2])
    | .networkError =>
      if remaining = 0 then ⟨false, sleeps, call + 1⟩
      else sendGo bot remaining (call + 1) (sleeps ++ [3])
    | .telegramError =>
      if remaining = 0 then ⟨false, sleeps, call + 1⟩
      else sendGo bot remaining (call + 1) (sleeps ++ [2])
    | .otherError =>
      if remaining = 0 then ⟨false, sleeps, call + 1⟩
      else sendGo bot remaining (call + 1) (sleeps ++ [2])

/-- `send_telegram_message` with `max_retries` attempts against the given
bot behaviour. -/
def send_telegram_message (bot : Nat → TgOutcome) (max_retries : Nat) :
    SendTrace :=
  sendGo bot max_retries 0 []

/-- Python `round` on an exact rational: round half to even
(banker rounding), the tie rule of `round` on numbers.  The crawler applies
it to `(original_price - price) / original_price * 100`; the embedding
evaluates that expression in exact arithmetic. -/
def pyRound (q : ℚ) : ℤ :=
  let f := ⌊q⌋
  if q - f < 1/2 then f
  else if 1/2 < q - f then f + 1
  else if f % 2 = 0 then f else f + 1

/-- One scraped product element after the graduated selector fallback of the
crawler, abstracted to what the extraction code reads from it: for each
field, the raw text of the first matching selector (`none` when no selector
in the list matched).  `linkHref` is the `href` of the first anchor
containing `/vp/` or `/np/`, if any. -/
structure RawItem where
  titleText : Option String
  priceText : Option String
  originalPriceText : Option String
  discountText : Option String
  linkHref : Option String
  imageSrc : Option String
  categoryText : Option String
deriving Repr, DecidableEq

/-- Python `str.strip()`: drop leading and trailing whitespace. -/
def pyStrip (s : String) : String :=
  String.mk
    (((s.data.dropWhile Char.isWhitespace).reverse.dropWhile
        Char.isWhitespace).reverse)

/-- Python `''.join(filter(str.isdigit, s))` for the ASCII digit strings the
price and discount elements carry. -/
def pyDigits (s : String) : String :=
  String.mk (s.data.filter Char.isDigit)

/-- Python `int` on a non-empty all-digit string: its decimal value. -/
def digitsToNat (l : List Char) : Nat :=
  l.foldl (fun acc c => acc * 10 + (c.toNat - 48)) 0

/-- The numeric-field pattern of the crawler (`src/crawler.py` lines
240-248, 255-263, 270-278): the field defaults to `0`; when a selector
matched, the digits of the stripped text are kept and, if any remain,
converted with `int`. -/
def parseNumField (t : Option String) : Int :=
  match t with
  | none => 0
  | some s =>
    let ds := pyDigits (pyStrip s)
    if ds = "" then 0 else (digitsToNat ds.data : Int)

/-- The per-item extraction of `get_coupang_deals` (`src/crawler.py` lines
212-316; `get_goldbox_deals` lines 430-526 runs the identical logic with a
different selector list and default category).  `none` models the item being
dropped (`continue`, or failing the final required-field check). -/
def extract_item (crawledCategory : String) (it : RawItem) : Option Deal :=
  let title := match it.titleText with
    | none => ""
    | some s => pyStrip s
  if title = "" then none
  else
    let price := parseNumField it.priceText
    if price = 0 then none
    else
      let op0 := parseNumField it.originalPriceText
      let original_price := if op0 = 0 then price else op0
      let d0 := parseNumField it.discountText
      let discount :=
        if d0 = 0 ∧ price < original_price then
          pyRound (((original_price : ℚ) - (price : ℚ)) / (original_price : ℚ) * 100)
        else d0
      let link := match it.linkHref with
        | none => ""
        | some h => "https://www.coupang.com" ++ h
      let image_url := match it.imageSrc with
        | none => ""
        | some src => if src.startsWith "http" then src else "https:" ++ src
      let category := match it.categoryText with
        | none => crawledCategory
        | some c => pyStrip c
      if title ≠ "" ∧ 0 < price ∧ link ≠ "" then
        some ⟨title, price, original_price, discount, link, image_url, category⟩
      else none

/-- A Python value in a CSV cell as pandas materializes it: an integer or a
string. -/
inductive PyVal where
  | pint (n : Int)
  | pstr (s : String)
deriving Repr, DecidableEq

/-- The Python exceptions the untyped model of `main` can propagate. -/
inductive PyErr where
  | keyError (k : String)
  | typeError
  | valueError
deriving Repr, DecidableEq

/-- One row of the loaded CSV, as the dict `deal.to_dict()` yields it. -/
abbrev Row := List (String × PyVal)

/-- The loaded deal DataFrame: its column labels and its rows. -/
structure Frame where
  cols : List String
  rows : List Row
deriving Repr, DecidableEq

/-- Field access `deal_dict[c]` on a row: `KeyError` when the column is
absent. -/
def getCol (r : Row) (c : String) : Except PyErr PyVal :=
  match r.lookup c with
  | some v => .ok v
  | none => .error (.keyError c)

/-- Python `int(v)`: an integer passes through, a string must be a decimal
literal (`ValueError` otherwise). -/
def pyInt (v : PyVal) : Except PyErr Int :=
  match v with
  | .pint n => .ok n
  | .pstr s =>
    match s.toInt? with
    | some n => .ok n
    | none => .error .valueError

/-- The value of a cell under the pandas comparison `df[col] >= t`: integer
cells compare, string cells raise `TypeError`. -/
def seriesInt (v : PyVal) : Except PyErr Int :=
  match v with
  | .pint n => .ok n
  | .pstr _ => .error .typeError

/-- Reads the `discount` cell of every row for the comparison series. -/
def rowsWithDiscount (rows : List Row) : Except PyErr (List (Row × Int)) :=
  rows.mapM (fun r => do
    let v ← getCol r "discount"
    let n ← seriesInt v
    pure (r, n))

/-- `filter_deals` (`src/telegram_sender.py` lines 161-174) on the raw
DataFrame: `None` or an empty frame yields `[]`; otherwise
`df[df[discount] >= t]` first looks the column up (`KeyError` when absent)
and compares every cell, then the kept rows are sorted descending by the
same column. -/
def filter_deals_fr (df : Option Frame) (t : Int) : Except PyErr (List Row) :=
  match df with
  | none => .ok []
  | some f =>
    if f.rows.length = 0 then .ok []
    else if f.cols.contains "discount" then do
      let pairs ← rowsWithDiscount f.rows
      let kept := pairs.filter (fun p => t ≤ p.2)
      pure ((pandasSortDescBy (fun p => p.2) kept).map (fun p => p.1))
    else .error (.keyError "discount")

/-- Ledger entry at the untyped level (the dict built at lines 398-403). -/
structure FrEntry where
  title : PyVal
  price : Int
  discount : Int
  sent_date : String
deriving Repr, DecidableEq

/-- The untyped in-memory ledger: keys are whatever `deal_dict[link]`
yields. -/
abbrev FrLedger := List (PyVal × FrEntry)

def frMember (L : FrLedger) (k : PyVal) : Bool :=
  L.any (fun kv => kv.1 == k)

def frInsert (L : FrLedger) (k : PyVal) (v : FrEntry) : FrLedger :=
  if frMember L k then
    L.map (fun kv => if kv.1 == k then (k, v) else kv)
  else
    L ++ [(k, v)]

/-- Loop state of the untyped model of `main`. -/
structure FrState where
  ledger : FrLedger
  sentCount : Nat
  alreadySentCount : Nat
deriving Repr, DecidableEq

/-- One iteration of the dispatch loop at the untyped level, with the field
accesses of the source in their evaluation order: `deal_dict[link]` at line
385; on the skip branch the log f-string reads `deal_dict[title]` (line
389); on the success branch the recorded entry reads `title`, `int(price)`,
`int(discount)` (lines 398-402).  `send_deal_to_telegram` catches every
exception and is the boolean oracle `send`. -/
def stepFr (maxSend : Nat) (today : String) (send : Row → Bool)
    (st : FrState) (r : Row) : Except PyErr FrState :=
  if maxSend ≤ st.sentCount then .ok st
  else do
    let pid ← getCol r "link"
    if frMember st.ledger pid then do
      let _ ← getCol r "title"
      .ok { st with alreadySentCount := st.alreadySentCount + 1 }
    else
      if send r then do
        let t ← getCol r "title"
        let pv ← getCol r "price"
        let p ← pyInt pv
        let dv ← getCol r "discount"
        let d ← pyInt dv
        .ok { st with
                ledger := frInsert st.ledger pid ⟨t, p, d, today⟩
                sentCount := st.sentCount + 1 }
      else .ok st

/-- `main` (`src/telegram_sender.py` lines 335-417) at the untyped level.
Missing credentials, a failed bot init, a failed data load (`load_deals`
catches its own errors and returns `None`) and an empty filter result all
take the early `return` paths; `load_sent_products` and `save_sent_products`
catch all their exceptions, so only `filter_deals` and the loop body can
propagate an exception past `main`.  The Python function returns `None` on
every path, hence the value `Unit`. -/
def main_fr (hasCreds botInitOk : Bool) (df : Option Frame) (L0 : FrLedger)
    (minDiscount : Int) (maxSend : Nat) (today : String)
    (send : Row → Bool) : Except PyErr Unit :=
  if ¬ hasCreds then .ok ()
  else if ¬ botInitOk then .ok ()
  else
    match df with
    | none => .ok ()
    | some f => do
      let filtered ← filter_deals_fr (some f) minDiscount
      if filtered.length = 0 then .ok ()
      else do
        let _ ← filtered.foldlM (stepFr maxSend today send) ⟨L0, 0, 0⟩
        .ok ()

section SortLemmas

variable {α : Type}

theorem pySortDescBy_perm (key : α → String) (l : List α) :
    List.Perm (pySortDescBy key l) l :=
  List.perm_insertionSort _ l

theorem pySortDescBy_sorted (key : α → String) (l : List α) :
    (pySortDescBy key l).Pairwise (fun a b => key b ≤ key a) := by
  haveI : IsTotal α (fun a b => key b ≤ key a) :=
    ⟨fun a b => le_total (key b) (key a)⟩
  haveI : IsTrans α (fun a b => key b ≤ key a) :=
    ⟨fun _ _ _ hab hbc => le_trans hbc hab⟩
  exact List.sorted_insertionSort _ l

theorem pandasSortDescBy_perm (key : α → Int) (l : List α) :
    List.Perm (pandasSortDescBy key l) l :=
  (List.reverse_perm _).trans (List.perm_insertionSort _ l)

theorem pandasSortDescBy_sorted (key : α → Int) (l : List α) :
    (pandasSortDescBy key l).Pairwise (fun a b => key b ≤ key a) := by
  haveI : IsTotal α (fun a b => key a ≤ key b) :=
    ⟨fun a b => le_total (key a) (key b)⟩
  haveI : IsTrans α (fun a b => key a ≤ key b) :=
    ⟨fun _ _ _ hab hbc => le_trans hab hbc⟩
  have h := List.sorted_insertionSort (fun a b => key a ≤ key b) l
  exact List.pairwise_reverse.2 h

end SortLemmas

/-- C2: for every ledger with more than `max_size` entries having pairwise
distinct `sent_date` values, the compaction performed by
`save_sent_products` writes exactly `max_size` entries, each taken from the
ledger, and every dropped entry has a strictly older `sent_date` than every
retained entry: the retained entries are exactly the `max_size` most recent
by `sent_date`. -/
theorem compact_keeps_most_recent (m : Nat) (L : Ledger)
    (hlen : m < L.length)
    (hdist : L.Pairwise (fun a b => a.2.sent_date ≠ b.2.sent_date)) :
    (save_sent_products m L).length = m
    ∧ (∀ a ∈ save_sent_products m L, a ∈ L)
    ∧ ∀ a ∈ save_sent_products m L, ∀ b ∈ L, b ∉ save_sent_products m L →
        b.2.sent_date < a.2.sent_date := by
  have hif : save_sent_products m L
      = (pySortDescBy (fun kv => kv.2.sent_date) L).take m := by
    unfold save_sent_products
    rw [if_pos hlen]
  have hperm : List.Perm (pySortDescBy (fun kv => kv.2.sent_date) L) L :=
    pySortDescBy_perm _ L
  have hsort := pySortDescBy_sorted (fun kv => kv.2.sent_date) L
  have hdists : (pySortDescBy (fun kv => kv.2.sent_date) L).Pairwise
      (fun a b => a.2.sent_date ≠ b.2.sent_date) :=
    (hperm.pairwise_iff (fun h => Ne.symm h)).2 hdist
  set s := pySortDescBy (fun kv => kv.2.sent_date) L with hsdef
  have hlens : s.length = L.length := hperm.length_eq
  refine ⟨?_, ?_, ?_⟩
  · rw [hif, List.length_take, hlens]
    exact Nat.min_eq_left (Nat.le_of_lt hlen)
  · intro a ha
    rw [hif] at ha
    exact hperm.mem_iff.1 (List.mem_of_mem_take ha)
  · intro a ha b hb hbn
    rw [hif] at ha hbn
    have hbs : b ∈ s := hperm.mem_iff.2 hb
    have hbdrop : b ∈ s.drop m := by
      rcases (List.mem_append.1 (by rwa [List.take_append_drop m s] : b ∈ s.take m ++ s.drop m)) with h | h
      · exact absurd h hbn
      · exact h
    have hsplit : s.Pairwise (fun x y => y.2.sent_date ≤ x.2.sent_date) := hsort
    rw [← List.take_append_drop m s] at hsplit hdists
    have hle := (List.pairwise_append.1 hsplit).2.2 a ha b hbdrop
    have hne := (List.pairwise_append.1 hdists).2.2 a ha b hbdrop
    exact lt_of_le_of_ne hle (Ne.symm hne)

/-- C2 witness: on a concrete three-entry ledger with distinct dates and
cap 2, compaction keeps exactly two entries. -/
theorem compact_keeps_most_recent_witness :
    (save_sent_products 2
      [("a", ⟨"a", 1, 1, "2026-01-03"⟩), ("b", ⟨"b", 1, 1, "2026-01-01"⟩),
       ("c", ⟨"c", 1, 1, "2026-01-05"⟩)]).length = 2 :=
  (compact_keeps_most_recent 2
    [("a", ⟨"a", 1, 1, "2026-01-03"⟩), ("b", ⟨"b", 1, 1, "2026-01-01"⟩),
     ("c", ⟨"c", 1, 1, "2026-01-05"⟩)] (by decide) (by decide)).1

/-- C5: `load_sent_products` is a total function (the embedding of a loader
whose every exception path is caught): a corrupt primary with a valid backup
yields the backup contents, a missing primary yields the empty ledger
whatever the backup holds, a corrupt primary with a corrupt or missing
backup yields the empty ledger, and a valid primary yields its own
contents. -/
theorem load_recovery (B L : Ledger) (backup : SentFile) :
    (load_sent_products .invalid (.valid B)).result = B
    ∧ (load_sent_products .missing backup).result = []
    ∧ (load_sent_products .invalid .invalid).result = []
    ∧ (load_sent_products .invalid .missing).result = []
    ∧ (load_sent_products (.valid L) backup).result = L :=
  ⟨rfl, rfl, rfl, rfl, rfl⟩

/-- C6 counterexample: two distinct deals with equal discount come out of
`filter_deals` in reversed batch order, so the tie order is not the original
batch order. -/
theorem filter_ties_reversed_cex :
    filter_deals 20
        [⟨"A", 100, 200, 50, "la", "", "c"⟩, ⟨"B", 100, 200, 50, "lb", "", "c"⟩]
      = [⟨"B", 100, 200, 50, "lb", "", "c"⟩, ⟨"A", 100, 200, 50, "la", "", "c"⟩]
    ∧ (⟨"A", 100, 200, 50, "la", "", "c"⟩ : Deal)
        ≠ ⟨"B", 100, 200, 50, "lb", "", "c"⟩
    ∧ (⟨"A", 100, 200, 50, "la", "", "c"⟩ : Deal).discount
        = (⟨"B", 100, 200, 50, "lb", "", "c"⟩ : Deal).discount := by
  refine ⟨by decide, by decide, rfl⟩

/-- C6 (amended): for every batch and threshold, the output of
`filter_deals` is a permutation of the records with `discount >= t` (it
contains exactly those records), it is ordered non-increasing by discount,
and a batch with no qualifying record yields the empty output; tie order
among equal discounts is however not the batch order (the descending pandas
sort reverses it, see the counterexample). -/
theorem filter_deals_spec (t : Int) (B : List Deal) :
    List.Perm (filter_deals t B) (B.filter (fun d => t ≤ d.discount))
    ∧ (filter_deals t B).Pairwise (fun a b => b.discount ≤ a.discount)
    ∧ (B.filter (fun d => t ≤ d.discount) = [] → filter_deals t B = []) := by
  unfold filter_deals
  by_cases hB : B.length = 0
  · rw [if_pos hB]
    rw [List.length_eq_zero] at hB
    subst hB
    exact ⟨List.Perm.refl _, List.Pairwise.nil, fun _ => rfl⟩
  · rw [if_neg hB]
    refine ⟨pandasSortDescBy_perm _ _, pandasSortDescBy_sorted _ _, ?_⟩
    intro h
    rw [h]
    rfl

/-- C6 witness: a batch whose only record is below the threshold yields the
empty output. -/
theorem filter_deals_spec_witness :
    filter_deals 60 [(⟨"A", 100, 200, 50, "la", "", "c"⟩ : Deal)] = [] :=
  (filter_deals_spec 60 [⟨"A", 100, 200, 50, "la", "", "c"⟩]).2.2 (by decide)

theorem parseNumField_nonneg (t : Option String) : 0 ≤ parseNumField t := by
  unfold parseNumField
  cases t with
  | none => exact le_refl 0
  | some s =>
    dsimp only
    split
    · exact le_refl 0
    · exact Int.natCast_nonneg _

theorem append_ne_empty_left (s t : String) (hs : s ≠ "") : s ++ t ≠ "" := by
  intro h
  apply hs
  have hd := congrArg String.data h
  rw [String.data_append] at hd
  exact String.ext (List.append_eq_nil.1 hd).1

/-- C9: whenever the crawler extraction yields a deal, its price is the
parsed price field; its original price is the parsed original-price field,
defaulting to the price when that field is zero or absent; a non-zero
scraped discount is kept as-is; and exactly when the scraped discount is
zero or absent and the original price exceeds the price, the discount is
recomputed as `round((original_price - price) / original_price * 100)`
(`pyRound` is the round-half-to-even of Python `round`, applied to the
formula in exact arithmetic), and otherwise stays zero. -/
theorem discount_recompute (cat : String) (it : RawItem) (d : Deal)
    (h : extract_item cat it = some d) :
    d.price = parseNumField it.priceText
    ∧ d.original_price =
        (if parseNumField it.originalPriceText = 0 then parseNumField it.priceText
         else parseNumField it.originalPriceText)
    ∧ (parseNumField it.discountText ≠ 0 → d.discount = parseNumField it.discountText)
    ∧ (parseNumField it.discountText = 0 → d.price < d.original_price →
        d.discount =
          pyRound (((d.original_price : ℚ) - (d.price : ℚ)) / (d.original_price : ℚ) * 100))
    ∧ (parseNumField it.discountText = 0 → ¬ d.price < d.original_price → d.discount = 0) := by
  unfold extract_item at h
  by_cases ht : (match it.titleText with | none => "" | some s => pyStrip s) = ""
  · rw [if_pos ht] at h
    exact absurd h (by simp)
  · rw [if_neg ht] at h
    by_cases hp : parseNumField it.priceText = 0
    · rw [if_pos hp] at h
      exact absurd h (by simp)
    · rw [if_neg hp] at h
      dsimp only at h
      have hpos : 0 < parseNumField it.priceText :=
        lt_of_le_of_ne (parseNumField_nonneg _) (Ne.symm hp)
      cases hlk : it.linkHref with
      | none =>
        rw [hlk] at h
        simp at h
      | some hr =>
        rw [hlk] at h
        dsimp only at h
        have hlink : ("https://www.coupang.com" ++ hr : String) ≠ "" :=
          append_ne_empty_left _ _ (by decide)
        rw [if_pos ⟨ht, hpos, hlink⟩] at h
        injection h with h2
        subst h2
        refine ⟨rfl, rfl, ?_, ?_, ?_⟩
        · intro h3
          dsimp only
          rw [if_neg (fun hc => h3 hc.1)]
        · intro h4a h4b
          dsimp only at h4b ⊢
          rw [if_pos ⟨h4a, h4b⟩]
        · intro h5a h5b
          dsimp only at h5b ⊢
          rw [if_neg (fun hc => h5b hc.2), h5a]

/-- C9 witness: a concrete scraped item carrying a non-zero discount badge
of 21 percent keeps the scraped value. -/
theorem discount_recompute_witness :
    (⟨"상품", 15900, 20000, 21, "https://www.coupang.com/vp/products/1", "", "일반"⟩ : Deal).discount
      = parseNumField (some "21%") :=
  (discount_recompute "일반"
    ⟨some "상품", some "15,900원", some "20,000원", some "21%", some "/vp/products/1", none, none⟩
    ⟨"상품", 15900, 20000, 21, "https://www.coupang.com/vp/products/1", "", "일반"⟩
    (by decide)).2.2.1 (by decide)

theorem sendGo_calls_le (bot : Nat → TgOutcome) :
    ∀ (remaining call : Nat) (sleeps : List ℚ),
      (sendGo bot remaining call sleeps).calls ≤ call + remaining + 1 := by
  intro remaining
  induction remaining with
  | zero =>
    intro call sleeps
    simp [sendGo]
  | succ r ih =>
    intro call sleeps
    unfold sendGo
    cases hb : bot call with
    | success => dsimp only; omega
    | retryAfter s =>
      dsimp only
      by_cases hr : r = 0
      · rw [if_pos hr]; dsimp only; omega
      · rw [if_neg hr]
        have h2 := ih (call + 1) (sleeps ++ [s + 1/2])
        omega
    | badRequestParse =>
      dsimp only
      cases bot (call + 1) <;> dsimp only <;> omega
    | badRequestOther => dsimp only; omega
    | timedOut =>
      dsimp only
      by_cases hr : r = 0
      · rw [if_pos hr]; dsimp only; omega
      · rw [if_neg hr]
        have h2 := ih (call + 1) (sleeps ++ [2])
        omega
    | networkError =>
      dsimp only
      by_cases hr : r = 0
      · rw [if_pos hr]; dsimp only; omega
      · rw [if_neg hr]
        have h2 := ih (call + 1) (sleeps ++ [3])
        omega
    | telegramError =>
      dsimp only
      by_cases hr : r = 0
      · rw [if_pos hr]; dsimp only; omega
      · rw [if_neg hr]
        have h2 := ih (call + 1) (sleeps ++ [2])
        omega
    | otherError =>
      dsimp only
      by_cases hr : r = 0
      · rw [if_pos hr]; dsimp only; omega
      · rw [if_neg hr]
        have h2 := ih (call + 1) (sleeps ++ [2])
        omega

/-- C7 (amended): when a bot call reports a rate limit with a suggested
wait of `s` seconds and attempts remain, the wrapper sleeps `s + 0.5`
seconds and retries by continuing the same loop with one fewer remaining
attempt -- the rate-limit retry consumes the shared `max_retries` budget
rather than a separate cap -- and the total number of bot calls in one
invocation is bounded by `max_retries + 1` (the `+1` is the plain-text
fallback call of the parse-error handler). -/
theorem rate_limit_retry (bot : Nat → TgOutcome) (remaining call : Nat)
    (sleeps : List ℚ) (s : ℚ) (h : bot call = .retryAfter s) :
    sendGo bot (remaining + 2) call sleeps
      = sendGo bot (remaining + 1) (call + 1) (sleeps ++ [s + 1/2])
    ∧ ∀ m, (send_telegram_message bot m).calls ≤ m + 1 := by
  constructor
  · conv_lhs => rw [sendGo]
    rw [h]
    dsimp only
    rw [if_neg (Nat.succ_ne_zero _)]
  · intro m
    simpa using sendGo_calls_le bot m 0 []

/-- C7 counterexample: against a bot whose first call is rate limited
(retry after 7 s) and whose next two calls time out, `max_retries = 3` is
exhausted after exactly 3 calls and the send fails, although only two
non-rate-limit transient failures occurred; with a budget of 4 the same bot
succeeds.  The rate-limit retry therefore consumed the generic
`max_retries` count instead of being capped separately, refuting the
claim. -/
theorem rate_limit_budget_cex :
    (send_telegram_message
        (fun n => if n = 0 then .retryAfter 7 else if n = 3 then .success else .timedOut) 3).ok
      = false
    ∧ (send_telegram_message
        (fun n => if n = 0 then .retryAfter 7 else if n = 3 then .success else .timedOut) 4).ok
      = true
    ∧ (send_telegram_message
        (fun n => if n = 0 then .retryAfter 7 else if n = 3 then .success else .timedOut) 3).calls
      = 3 :=
  ⟨rfl, rfl, rfl⟩

/-- C7 witness: a concrete rate-limited first call with 2 remaining
attempts continues as 1 remaining attempt after sleeping 7.5 seconds. -/
theorem rate_limit_retry_witness :
    sendGo (fun _ => .retryAfter 7) 2 0 []
      = sendGo (fun _ => .retryAfter 7) 1 1 ([] ++ [7 + 1/2]) :=
  (rate_limit_retry (fun _ => .retryAfter 7) 0 0 [] 7 rfl).1

theorem stepDeal_capped (cfg : DispatchConfig) (send : Deal → Bool)
    (st : DispatchState) (d : Deal) (h : cfg.maxSendCount ≤ st.sentCount) :
    stepDeal cfg send st d = st := by
  unfold stepDeal
  rw [if_pos h]

theorem foldl_capped (cfg : DispatchConfig) (send : Deal → Bool) (l : List Deal) :
    ∀ st : DispatchState, cfg.maxSendCount ≤ st.sentCount →
      l.foldl (stepDeal cfg send) st = st := by
  induction l with
  | nil => intro st _; rfl
  | cons d l ih =>
    intro st h
    rw [List.foldl_cons, stepDeal_capped cfg send st d h]
    exact ih st h

theorem stepDeal_sent_le (cfg : DispatchConfig) (send : Deal → Bool)
    (st : DispatchState) (d : Deal) (h : st.sentCount ≤ cfg.maxSendCount) :
    (stepDeal cfg send st d).sentCount ≤ cfg.maxSendCount := by
  unfold stepDeal
  by_cases h1 : cfg.maxSendCount ≤ st.sentCount
  · rw [if_pos h1]; exact h
  · rw [if_neg h1]
    by_cases h2 : ledgerMember st.sent_products d.link = true
    · rw [if_pos h2]; exact h
    · rw [if_neg h2]
      by_cases h3 : send d = true
      · rw [if_pos h3]; dsimp only; omega
      · rw [if_neg h3]; exact h

theorem foldl_sent_le (cfg : DispatchConfig) (send : Deal → Bool) (l : List Deal) :
    ∀ st : DispatchState, st.sentCount ≤ cfg.maxSendCount →
      (l.foldl (stepDeal cfg send) st).sentCount ≤ cfg.maxSendCount := by
  induction l with
  | nil => intro st h; exact h
  | cons d l ih =>
    intro st h
    rw [List.foldl_cons]
    exact ih _ (stepDeal_sent_le cfg send st d h)

/-- C3: a run performs at most `maxSendCount` successful deliveries; as
soon as that many successes have occurred the loop stops doing anything (a
run over `pre ++ post` equals the run over `pre` alone once `pre` reached
the cap, however many candidates remain in `post`); and a deal already in
the ledger is skipped with only the already-sent counter incremented, so it
does not count against the cap -- only successful deliveries increment the
dispatch counter. -/
theorem dispatch_cap (cfg : DispatchConfig) (send : Deal → Bool) (L0 : Ledger)
    (deals pre post : List Deal) (st : DispatchState) (d : Deal)
    (hpre : cfg.maxSendCount ≤ (runDispatch cfg send L0 pre).sentCount)
    (hnc : st.sentCount < cfg.maxSendCount)
    (hmem : ledgerMember st.sent_products d.link = true) :
    (runDispatch cfg send L0 deals).sentCount ≤ cfg.maxSendCount
    ∧ runDispatch cfg send L0 (pre ++ post) = runDispatch cfg send L0 pre
    ∧ stepDeal cfg send st d = { st with alreadySentCount := st.alreadySentCount + 1 }
    ∧ (stepDeal cfg send st d).sentCount = st.sentCount := by
  have hskip : stepDeal cfg send st d
      = { st with alreadySentCount := st.alreadySentCount + 1 } := by
    unfold stepDeal
    rw [if_neg (not_le.2 hnc), if_pos hmem]
  refine ⟨?_, ?_, hskip, by rw [hskip]⟩
  · exact foldl_sent_le cfg send deals _ (Nat.zero_le _)
  · have h2 : (pre ++ post).foldl (stepDeal cfg send)
        (⟨L0, L0, 0, 0, [], []⟩ : DispatchState)
        = pre.foldl (stepDeal cfg send) ⟨L0, L0, 0, 0, [], []⟩ := by
      rw [List.foldl_append]
      exact foldl_capped cfg send post _ hpre
    unfold runDispatch
    dsimp only
    rw [h2]

def ledgerKeys (L : Ledger) : List String := L.map (fun kv => kv.1)

theorem ledgerInsert_fresh (L : Ledger) (k : String) (v : SentEntry)
    (h : ledgerMember L k = false) : ledgerInsert L k v = L ++ [(k, v)] := by
  unfold ledgerInsert
  rw [h]
  simp

theorem ledgerKeys_insert_fresh (L : Ledger) (k : String) (v : SentEntry)
    (h : ledgerMember L k = false) :
    ledgerKeys (ledgerInsert L k v) = ledgerKeys L ++ [k] := by
  rw [ledgerInsert_fresh L k v h]
  simp [ledgerKeys]

theorem stepDeal_invariant (cfg : DispatchConfig) (send : Deal → Bool)
    (L0 : Ledger) (st : DispatchState) (d : Deal)
    (h1 : ledgerKeys st.sent_products = ledgerKeys L0 ++ st.delivered)
    (h2 : st.delivered = (st.attempted.filter send).map (fun x => x.link))
    (h3 : st.sentCount = st.delivered.length) :
    ledgerKeys (stepDeal cfg send st d).sent_products
        = ledgerKeys L0 ++ (stepDeal cfg send st d).delivered
    ∧ (stepDeal cfg send st d).delivered
        = ((stepDeal cfg send st d).attempted.filter send).map (fun x => x.link)
    ∧ (stepDeal cfg send st d).sentCount
        = (stepDeal cfg send st d).delivered.length := by
  unfold stepDeal
  by_cases hc : cfg.maxSendCount ≤ st.sentCount
  · rw [if_pos hc]
    exact ⟨h1, h2, h3⟩
  · rw [if_neg hc]
    by_cases hm : ledgerMember st.sent_products d.link = true
    · rw [if_pos hm]
      exact ⟨h1, h2, h3⟩
    · rw [if_neg hm]
      by_cases hs : send d = true
      · rw [if_pos hs]
        dsimp only
        refine ⟨?_, ?_, ?_⟩
        · rw [ledgerKeys_insert_fresh _ _ _ (Bool.not_eq_true _ ▸ hm : ledgerMember st.sent_products d.link = false),
            h1, List.append_assoc]
        · rw [List.filter_append, List.map_append, ← h2]
          simp [hs]
        · rw [h3]
          simp
      · rw [if_neg hs]
        dsimp only
        refine ⟨h1, ?_, h3⟩
        rw [List.filter_append, List.map_append, ← h2]
        simp [hs]

theorem dispatch_foldl_invariant (cfg : DispatchConfig) (send : Deal → Bool)
    (L0 : Ledger) (l : List Deal) :
    ∀ st : DispatchState,
      ledgerKeys st.sent_products = ledgerKeys L0 ++ st.delivered →
      st.delivered = (st.attempted.filter send).map (fun x => x.link) →
      st.sentCount = st.delivered.length →
      ledgerKeys (l.foldl (stepDeal cfg send) st).sent_products
          = ledgerKeys L0 ++ (l.foldl (stepDeal cfg send) st).delivered
      ∧ (l.foldl (stepDeal cfg send) st).delivered
          = ((l.foldl (stepDeal cfg send) st).attempted.filter send).map (fun x => x.link)
      ∧ (l.foldl (stepDeal cfg send) st).sentCount
          = (l.foldl (stepDeal cfg send) st).delivered.length := by
  induction l with
  | nil => intro st h1 h2 h3; exact ⟨h1, h2, h3⟩
  | cons d l ih =>
    intro st h1 h2 h3
    rw [List.foldl_cons]
    obtain ⟨g1, g2, g3⟩ := stepDeal_invariant cfg send L0 st d h1 h2 h3
    exact ih _ g1 g2 g3

/-- C4: after a run, the ledger keys are exactly the initial keys followed
by the delivered links; the delivered links are exactly the links of
attempted deals whose delivery reported success (a deal whose attempt
failed -- all retries exhausted -- is not recorded, so it stays eligible
next run); and the dispatch counter equals the number of successful
deliveries. -/
theorem ledger_records_successes (cfg : DispatchConfig) (send : Deal → Bool)
    (L0 : Ledger) (deals : List Deal) :
    ledgerKeys (runDispatch cfg send L0 deals).sent_products
        = ledgerKeys L0 ++ (runDispatch cfg send L0 deals).delivered
    ∧ (runDispatch cfg send L0 deals).delivered
        = ((runDispatch cfg send L0 deals).attempted.filter send).map (fun x => x.link)
    ∧ (runDispatch cfg send L0 deals).sentCount
        = (runDispatch cfg send L0 deals).delivered.length := by
  have h := dispatch_foldl_invariant cfg send L0 deals ⟨L0, L0, 0, 0, [], []⟩
    (by simp) (by simp) (by simp)
  exact h

def coreOf (st : DispatchState) : Ledger × Nat × Nat × List Deal × List String :=
  (st.sent_products, st.sentCount, st.alreadySentCount, st.attempted, st.delivered)

theorem stepDeal_core (cfg : DispatchConfig) (m2 : Nat) (send : Deal → Bool)
    (st1 st2 : DispatchState) (d : Deal) (h : coreOf st1 = coreOf st2) :
    coreOf (stepDeal { cfg with maxSentProducts := m2 } send st1 d)
      = coreOf (stepDeal cfg send st2 d) := by
  obtain ⟨sp1, f1, sc1, a1, at1, dl1⟩ := st1
  obtain ⟨sp2, f2, sc2, a2, at2, dl2⟩ := st2
  simp only [coreOf, Prod.mk.injEq] at h
  obtain ⟨e1, e2, e3, e4, e5⟩ := h
  subst e1; subst e2; subst e3; subst e4; subst e5
  simp only [stepDeal, coreOf]
  split_ifs <;> rfl

theorem foldl_core (cfg : DispatchConfig) (m2 : Nat) (send : Deal → Bool)
    (l : List Deal) :
    ∀ st1 st2 : DispatchState, coreOf st1 = coreOf st2 →
      coreOf (l.foldl (stepDeal { cfg with maxSentProducts := m2 } send) st1)
        = coreOf (l.foldl (stepDeal cfg send) st2) := by
  induction l with
  | nil => intro st1 st2 h; exact h
  | cons d l ih =>
    intro st1 st2 h
    rw [List.foldl_cons, List.foldl_cons]
    exact ih _ _ (stepDeal_core cfg m2 send st1 st2 d h)

/-- C10: saving never mutates the in-memory ledger.  The file contents
after a run are the compaction of the final in-memory ledger, while the
in-memory ledger, the dispatch counter and the delivery history of the run
are all independent of the `maxSentProducts` cap: compaction affects only
what is serialized, and the loop continues (and ends) with the full,
uncompacted mapping. -/
theorem save_frame (cfg : DispatchConfig) (m2 : Nat) (send : Deal → Bool)
    (L0 : Ledger) (deals : List Deal) :
    (runDispatch cfg send L0 deals).primaryFile
      = save_sent_products cfg.maxSentProducts (runDispatch cfg send L0 deals).sent_products
    ∧ (runDispatch { cfg with maxSentProducts := m2 } send L0 deals).sent_products
      = (runDispatch cfg send L0 deals).sent_products
    ∧ (runDispatch { cfg with maxSentProducts := m2 } send L0 deals).sentCount
      = (runDispatch cfg send L0 deals).sentCount
    ∧ (runDispatch { cfg with maxSentProducts := m2 } send L0 deals).delivered
      = (runDispatch cfg send L0 deals).delivered := by
  have hcore := foldl_core cfg m2 send deals ⟨L0, L0, 0, 0, [], []⟩ ⟨L0, L0, 0, 0, [], []⟩ rfl
  simp only [coreOf, Prod.mk.injEq] at hcore
  obtain ⟨e1, e2, e3, e4, e5⟩ := hcore
  exact ⟨rfl, e1, e2, e5⟩

theorem takeWhile_append_of_false {α : Type} (p : α → Bool) (a : α) (l2 : List α)
    (hpa : p a = false) : ∀ l1 : List α, (l1 ++ a :: l2).takeWhile p = l1.takeWhile p := by
  intro l1
  induction l1 with
  | nil => simp [List.takeWhile_cons, hpa]
  | cons c cs ih =>
    by_cases hc : p c = true
    · simp [List.takeWhile_cons, hc, ih]
    · simp [List.takeWhile_cons, Bool.not_eq_true _ ▸ hc]

theorem specNormalize_drops_query (u q : String) :
    specNormalize (u ++ "?" ++ q) = specNormalize u := by
  unfold specNormalize
  have hd : (u ++ "?" ++ q).data = u.data ++ '?' :: q.data := by
    rw [String.data_append, String.data_append]
    simp
  rw [hd, takeWhile_append_of_false _ '?' q.data (by decide) u.data]

/-- C1 (amended): the dispatch loop keys the ledger by the raw link string:
membership is tested on `deal_dict[link]` unchanged and a successful
delivery appends an entry under that raw link, no normalization being
applied anywhere -- so a URL and its query-suffixed variant are two
different ledger keys, even though the normalization described by the
specification would identify them. -/
theorem raw_link_is_ledger_key (cfg : DispatchConfig) (send : Deal → Bool)
    (st : DispatchState) (d : Deal) (u q : String)
    (hnc : st.sentCount < cfg.maxSendCount)
    (hmem : ledgerMember st.sent_products d.link = false)
    (hs : send d = true) :
    (stepDeal cfg send st d).sent_products
      = st.sent_products ++ [(d.link, entryOf cfg d)]
    ∧ u ++ "?" ++ q ≠ u
    ∧ specNormalize (u ++ "?" ++ q) = specNormalize u := by
  refine ⟨?_, ?_, specNormalize_drops_query u q⟩
  · unfold stepDeal
    rw [if_neg (not_le.2 hnc), if_neg (by simp [hmem]), if_pos hs]
    dsimp only
    exact ledgerInsert_fresh _ _ _ hmem
  · intro heq
    have hlen := congrArg String.length heq
    rw [String.length_append, String.length_append] at hlen
    have : ("?" : String).length = 1 := by decide
    omega

/-- C1 witness: a fresh deal with a query-carrying link is inserted under
that exact raw link. -/
theorem raw_link_is_ledger_key_witness :
    (stepDeal ⟨30, 500, "2026-10-12"⟩ (fun _ => true)
        ⟨[], [], 0, 0, [], []⟩ ⟨"A", 100, 200, 50, "https://x/p?a=1", "", "c"⟩).sent_products
      = [] ++ [("https://x/p?a=1",
          entryOf ⟨30, 500, "2026-10-12"⟩ ⟨"A", 100, 200, 50, "https://x/p?a=1", "", "c"⟩)] :=
  (raw_link_is_ledger_key ⟨30, 500, "2026-10-12"⟩ (fun _ => true) ⟨[], [], 0, 0, [], []⟩
    ⟨"A", 100, 200, 50, "https://x/p?a=1", "", "c"⟩ "u" "q"
    (by decide) (by decide) (by decide)).1

/-- C1 counterexample: two deals whose links differ only in their query
string are both delivered and recorded as two distinct ledger entries keyed
by the raw links, although their spec-normalized forms coincide; under the
claim they would share one ledger key and the second would have been
skipped. -/
theorem normalized_key_cex :
    (runDispatch ⟨30, 500, "2026-10-12"⟩ (fun _ => true) []
        [⟨"A", 100, 200, 50, "https://www.coupang.com/vp/1?x=1", "", "c"⟩,
         ⟨"B", 100, 200, 50, "https://www.coupang.com/vp/1?x=2", "", "c"⟩]).sent_products
      = [("https://www.coupang.com/vp/1?x=1", ⟨"A", 100, 50, "2026-10-12"⟩),
         ("https://www.coupang.com/vp/1?x=2", ⟨"B", 100, 50, "2026-10-12"⟩)]
    ∧ specNormalize "https://www.coupang.com/vp/1?x=1"
        = specNormalize "https://www.coupang.com/vp/1?x=2"
    ∧ ("https://www.coupang.com/vp/1?x=1" : String) ≠ "https://www.coupang.com/vp/1?x=2" :=
  ⟨by decide, by decide, by decide⟩

/-- C3 witness: with a cap of 1 and one successful candidate, the run
performs exactly one delivery and respects the cap. -/
theorem dispatch_cap_witness :
    (runDispatch ⟨1, 500, "d"⟩ (fun _ => true) [] [⟨"A", 1, 1, 50, "a", "", "g"⟩]).sentCount ≤ 1 :=
  (dispatch_cap ⟨1, 500, "d"⟩ (fun _ => true) [] [⟨"A", 1, 1, 50, "a", "", "g"⟩]
    [⟨"A", 1, 1, 50, "a", "", "g"⟩] [] ⟨[("k", ⟨"t", 1, 1, "d"⟩)], [], 0, 0, [], []⟩
    ⟨"T", 1, 1, 50, "k", "", "g"⟩ (by decide) (by decide) (by decide)).1

/-- C8 counterexample: on a non-empty batch missing the `discount` column
(a malformed batch), `main` propagates a `KeyError` raised by
`filter_deals` -- there is no enclosing handler -- refuting the claim that
the entry point never raises for any input. -/
theorem main_raises_cex :
    main_fr true true
        (some ⟨["title", "link", "price"],
          [[("title", .pstr "A"), ("link", .pstr "L"), ("price", .pint 100)]]⟩)
        [] 20 30 "2026-10-12" (fun _ => true)
      = .error (.keyError "discount") := rfl

def rowWellFormed (r : Row) : Bool :=
  (r.lookup "link").isSome
  && (r.lookup "title").isSome
  && (match r.lookup "discount" with
      | some (.pint _) => true
      | _ => false)
  && (match r.lookup "price" with
      | some (.pint _) => true
      | some (.pstr s) => (s.toInt?).isSome
      | none => false)

theorem rowsWithDiscount_ok (rows : List Row)
    (h : ∀ r ∈ rows, (match r.lookup "discount" with
        | some (.pint _) => true | _ => false) = true) :
    ∃ ps : List (Row × Int), rowsWithDiscount rows = .ok ps
      ∧ ps.map (fun p => p.1) = rows := by
  induction rows with
  | nil => exact ⟨[], rfl, rfl⟩
  | cons r rs ih =>
    obtain ⟨ps, hps, hmap⟩ := ih (fun x hx => h x (List.mem_cons_of_mem _ hx))
    have hr := h r (List.mem_cons_self _ _)
    match hlk : r.lookup "discount" with
    | some (.pint n) =>
      refine ⟨(r, n) :: ps, ?_, by simp [hmap]⟩
      unfold rowsWithDiscount at hps ⊢
      rw [List.mapM_cons, hps]
      simp only [getCol, hlk]
      rfl
    | some (.pstr s) =>
      rw [hlk] at hr
      simp at hr
    | none =>
      rw [hlk] at hr
      simp at hr

theorem exceptBind_ok {ε α β : Type} (a : α) (f : α → Except ε β) :
    (Except.ok a >>= f : Except ε β) = f a := rfl

theorem rowWellFormed_discount (r : Row) (h : rowWellFormed r = true) :
    (match r.lookup "discount" with
      | some (.pint _) => true | _ => false) = true := by
  unfold rowWellFormed at h
  simp only [Bool.and_eq_true] at h
  exact h.1.2

theorem stepFr_ok (maxSend : Nat) (today : String) (send : Row → Bool)
    (st : FrState) (r : Row) (hr : rowWellFormed r = true) :
    ∃ st2, stepFr maxSend today send st r = .ok st2 := by
  unfold stepFr
  by_cases hc : maxSend ≤ st.sentCount
  · rw [if_pos hc]
    exact ⟨st, rfl⟩
  · rw [if_neg hc]
    unfold rowWellFormed at hr
    simp only [Bool.and_eq_true] at hr
    obtain ⟨⟨⟨hlink, htitle⟩, hdisc⟩, hprice⟩ := hr
    obtain ⟨lv, hlv⟩ := Option.isSome_iff_exists.1 hlink
    obtain ⟨tv, htv⟩ := Option.isSome_iff_exists.1 htitle
    have hglink : getCol r "link" = .ok lv := by simp [getCol, hlv]
    have hgtitle : getCol r "title" = .ok tv := by simp [getCol, htv]
    simp only [hglink, exceptBind_ok]
    by_cases hm : frMember st.ledger lv = true
    · rw [if_pos hm]
      simp only [hgtitle, exceptBind_ok]
      exact ⟨_, rfl⟩
    · rw [if_neg hm]
      by_cases hs : send r = true
      · rw [if_pos hs]
        have hpi : ∃ pv pn, r.lookup "price" = some pv ∧ pyInt pv = .ok pn := by
          match hpv : r.lookup "price" with
          | some (.pint n) => exact ⟨.pint n, n, rfl, rfl⟩
          | some (.pstr s) =>
            rw [hpv] at hprice
            obtain ⟨n, hn⟩ := Option.isSome_iff_exists.1 hprice
            exact ⟨.pstr s, n, rfl, by simp [pyInt, hn]⟩
          | none =>
            rw [hpv] at hprice
            simp at hprice
        obtain ⟨pv, pn, hpv, hpn⟩ := hpi
        have hdi : ∃ dn, r.lookup "discount" = some (.pint dn) := by
          match hdv : r.lookup "discount" with
          | some (.pint n) => exact ⟨n, rfl⟩
          | some (.pstr s) => rw [hdv] at hdisc; simp at hdisc
          | none => rw [hdv] at hdisc; simp at hdisc
        obtain ⟨dn, hdn⟩ := hdi
        have hgprice : getCol r "price" = .ok pv := by simp [getCol, hpv]
        have hgdisc : getCol r "discount" = .ok (.pint dn) := by simp [getCol, hdn]
        simp only [hgtitle, hgprice, hgdisc, hpn, exceptBind_ok]
        exact ⟨_, rfl⟩
      · rw [if_neg hs]
        exact ⟨st, rfl⟩

theorem foldlM_stepFr_ok (maxSend : Nat) (today : String) (send : Row → Bool)
    (l : List Row) :
    ∀ st : FrState, (∀ r ∈ l, rowWellFormed r = true) →
      ∃ st2, l.foldlM (stepFr maxSend today send) st = .ok st2 := by
  induction l with
  | nil => intro st _; exact ⟨st, rfl⟩
  | cons r rs ih =>
    intro st h
    obtain ⟨st1, hst1⟩ := stepFr_ok maxSend today send st r (h r (List.mem_cons_self _ _))
    obtain ⟨st2, hst2⟩ := ih st1 (fun x hx => h x (List.mem_cons_of_mem _ hx))
    refine ⟨st2, ?_⟩
    have hdef : (r :: rs).foldlM (stepFr maxSend today send) st
        = (stepFr maxSend today send st r >>= fun st1 =>
            rs.foldlM (stepFr maxSend today send) st1) := by
      simp [List.foldlM_cons]
    rw [hdef, hst1, exceptBind_ok]
    exact hst2

/-- C8 (amended): `main` raises nothing when the batch is well formed --
every row has `title` and `link` cells, an integer `discount` cell and an
integer (or integer-literal string) `price` cell, and the frame carries the
`discount` column -- and also on every early-return path (missing
credentials, failed bot init, missing data); on all those inputs it
completes with the Python return value `None` (the count of sent items is
only logged, not returned).  A malformed batch, however, can raise (see the
counterexample). -/
theorem main_no_raise (creds botOk : Bool) (f : Frame) (L0 : FrLedger)
    (t : Int) (maxSend : Nat) (today : String) (send : Row → Bool)
    (hcols : f.cols.contains "discount" = true)
    (hrows : ∀ r ∈ f.rows, rowWellFormed r = true) :
    main_fr creds botOk (some f) L0 t maxSend today send = .ok ()
    ∧ ∀ (L1 : FrLedger) (t1 : Int) (m1 : Nat) (td1 : String) (s1 : Row → Bool),
        main_fr creds botOk none L1 t1 m1 td1 s1 = .ok () := by
  constructor
  · cases creds with
    | false => rfl
    | true =>
      cases botOk with
      | false => rfl
      | true =>
        have hstart : main_fr true true (some f) L0 t maxSend today send
            = (do
                let filtered ← filter_deals_fr (some f) t
                if filtered.length = 0 then .ok () else do
                  let _ ← filtered.foldlM (stepFr maxSend today send)
                    (⟨L0, 0, 0⟩ : FrState)
                  (.ok () : Except PyErr Unit)) := rfl
        rw [hstart]
        by_cases hrlen : f.rows.length = 0
        · have hfd : filter_deals_fr (some f) t = .ok [] := by
            unfold filter_deals_fr
            dsimp only
            rw [if_pos hrlen]
          rw [hfd, exceptBind_ok]
          rfl
        · obtain ⟨ps, hps, hmap⟩ :=
            rowsWithDiscount_ok f.rows (fun r hrm => rowWellFormed_discount r (hrows r hrm))
          have hfd : filter_deals_fr (some f) t
              = .ok ((pandasSortDescBy (fun p => p.2)
                  (ps.filter (fun p => t ≤ p.2))).map (fun p => p.1)) := by
            unfold filter_deals_fr
            dsimp only
            rw [if_neg hrlen, if_pos hcols, hps, exceptBind_ok]
            rfl
          rw [hfd, exceptBind_ok]
          by_cases hflen : ((pandasSortDescBy (fun p => p.2)
              (ps.filter (fun p => t ≤ p.2))).map (fun p => p.1)).length = 0
          · rw [if_pos hflen]
          · rw [if_neg hflen]
            have hsubset : ∀ r ∈ (pandasSortDescBy (fun p => p.2)
                (ps.filter (fun p => t ≤ p.2))).map (fun p => p.1),
                rowWellFormed r = true := by
              intro r hrmem
              obtain ⟨p, hpmem, hpr⟩ := List.mem_map.1 hrmem
              have hp2 : p ∈ ps.filter (fun p => t ≤ p.2) :=
                (pandasSortDescBy_perm (fun p => p.2) _).mem_iff.1 hpmem
              have hp3 : p ∈ ps := List.mem_of_mem_filter hp2
              have hp4 : p.1 ∈ ps.map (fun p => p.1) := List.mem_map_of_mem _ hp3
              rw [hmap] at hp4
              rw [← hpr]
              exact hrows _ hp4
            obtain ⟨st2, hst2⟩ := foldlM_stepFr_ok maxSend today send _ ⟨L0, 0, 0⟩ hsubset
            rw [hst2, exceptBind_ok]
  · intro L1 t1 m1 td1 s1
    cases creds with
    | false => rfl
    | true =>
      cases botOk with
      | false => rfl
      | true => rfl

/-- C8 witness: a concrete well-formed one-row batch runs to completion. -/
theorem main_no_raise_witness :
    main_fr true true
        (some ⟨["title", "link", "price", "discount"],
          [[("title", .pstr "A"), ("link", .pstr "L"), ("price", .pint 100),
            ("discount", .pint 50)]]⟩)
        [] 20 30 "2026-10-12" (fun _ => true) = .ok () :=
  (main_no_raise true true
    ⟨["title", "link", "price", "discount"],
      [[("title", .pstr "A"), ("link", .pstr "L"), ("price", .pint 100),
        ("discount", .pint 50)]]⟩
    [] 20 30 "2026-10-12" (fun _ => true) (by decide) (by decide)).1

end Hotdeal
